import Mathlib

/-
  Verification of velkorra/whisper (src/transcribe_mp3.py) against its
  natural-language specification.

  Shallow embedding notes:
  - `pyStrip` models Python's `str.strip()` over the character list of a
    string (whitespace as recognized by `Char.isWhitespace`).
  - The segment loop of `transcribe_audio_faster` (lines 76-132) is a fold
    with state (full_text, repetition_count, last_text).
  - The file system is a map from paths to optional contents; `os.rename`
    and `open(..., "w").write` are modelled as updates of that map, with
    Boolean oracles for the points where the real calls can raise.
  - Exceptions from the external engine (model load / transcription) are
    modelled by an `Except` value handed to the driver; the driver itself
    is a total function into `Option String`, mirroring the fact that the
    Python function catches every exception and returns None.
-/

namespace Whisper

/-- Model of Python `str.strip` on a character list: drop whitespace from
the front, then from the back. -/
def pyStripList (cs : List Char) : List Char :=
  (((cs.dropWhile Char.isWhitespace).reverse).dropWhile Char.isWhitespace).reverse

/-- Model of `segment.text.strip()` (transcribe_mp3.py line 100). -/
def pyStrip (s : String) : String :=
  String.mk (pyStripList s.data)

/-- State of the segment-consumption loop of `transcribe_audio_faster`
(transcribe_mp3.py lines 76-113): accumulated texts `full_text`, the
repetition counter, and `last_text`. -/
structure LoopState where
  fullText : List String
  repetitionCount : Nat
  lastText : String
deriving Repr, DecidableEq

/-- Initial loop state (lines 76, 80, 81): empty accumulator, counter 0,
`last_text = ""`. -/
def initState : LoopState :=
  ⟨[], 0, ""⟩

/-- Line 112-113: `if current_text and current_text not in ["", " "]:
full_text.append(current_text)`. -/
def appendText (full : List String) (currentText : String) : List String :=
  if currentText ≠ "" ∧ currentText ∉ (["", " "] : List String) then
    full ++ [currentText]
  else
    full

/-- One iteration of the segment loop, lines 99-113 of transcribe_mp3.py:
loop detection (lines 100-109) followed by the conditional append
(lines 112-113). `continue` on line 106 skips the append. -/
def processSegment (st : LoopState) (segText : String) : LoopState :=
  let currentText := pyStrip segText
  if currentText = st.lastText ∧ currentText.length > 10 then
    let rep := st.repetitionCount + 1
    if rep > 3 then
      ⟨st.fullText, rep, st.lastText⟩
    else
      ⟨appendText st.fullText currentText, rep, st.lastText⟩
  else
    ⟨appendText st.fullText currentText, 0, currentText⟩

/-- The whole segment loop over a stream of segment texts. -/
def processSegments (texts : List String) : LoopState :=
  texts.foldl processSegment initState

/-- The accumulated `full_text` list after consuming the stream. -/
def transcribeAccum (texts : List String) : List String :=
  (processSegments texts).fullText

/-- Line 132: `result_text = "\n".join(full_text)`. -/
def resultText (texts : List String) : String :=
  String.intercalate "\n" (transcribeAccum texts)

/-- A segment yielded by the external engine. Only its `text` field feeds
the result; the timing fields feed progress printing only and are
omitted. -/
structure Segment where
  text : String

/-- The exceptions the driver catches (lines 145-162): user interruption,
memory exhaustion, and any other exception from model load or
transcription. -/
inductive TranscribeError where
  | keyboardInterrupt : TranscribeError
  | memoryError : TranscribeError
  | otherError : String → TranscribeError

/-- Model of `transcribe_audio_faster` (lines 8-162). `fileExists` is the
`os.path.exists` check of line 13; `engine` is the outcome of the external
library (model load on line 30 plus `model.transcribe` and generator
consumption, lines 70-118): either an exception or the full list of
segments. The Python function returns None on the missing-file early
return and in every except-branch, and otherwise the joined text. -/
def transcribe_audio_faster (fileExists : Bool)
    (engine : Except TranscribeError (List Segment)) : Option String :=
  if fileExists then
    match engine with
    | Except.error _ => none
    | Except.ok segments => some (resultText (segments.map Segment.text))
  else
    none

/-- The file system as a map from paths to optional file contents. -/
def FS : Type :=
  String → Option String

/-- Pointwise update of the file-system map. -/
def FS.update (fs : FS) (p : String) (v : Option String) : FS :=
  fun q => if q = p then v else fs q

/-- Model of `open(output_path, "w", encoding="utf-8")` + `f.write(text)`
(lines 174-175). `openOk` models whether the open succeeds; when it does,
the file is truncated, so a failing write (`writeOk = false`) leaves an
empty file at the path. -/
def writeNewFile (openOk writeOk : Bool) (text p : String) (fs : FS) : FS × Bool :=
  if openOk then
    if writeOk then
      (fs.update p (some text), true)
    else
      (fs.update p (some ""), false)
  else
    (fs, false)

/-- Model of `save_text_with_backup` (lines 164-180). If a file exists at
`output_path`, `os.rename` moves it to `output_path + ".backup"`,
replacing any prior backup; then the new text is written. The whole body
is wrapped in try/except returning False, so `renameOk`, `openOk`,
`writeOk` model the points where the real calls can raise. -/
def save_text_with_backup (renameOk openOk writeOk : Bool)
    (text output_path : String) (fs : FS) : FS × Bool :=
  if (fs output_path).isSome then
    if renameOk then
      let backup_path := output_path ++ ".backup"
      let fs1 := (fs.update backup_path (fs output_path)).update output_path none
      writeNewFile openOk writeOk text output_path fs1
    else
      (fs, false)
  else
    writeNewFile openOk writeOk text output_path fs

/-- Model of the tail of `__main__` (lines 295-334): the save routine is
called exactly when `text_result is not None` (line 295, line 324). The
returned Bool records whether `save_text_with_backup` was invoked. -/
def mainSaveStep (textResult : Option String) (renameOk openOk writeOk : Bool)
    (outputPath : String) (fs : FS) : FS × Bool :=
  match textResult with
  | none => (fs, false)
  | some t => ((save_text_with_backup renameOk openOk writeOk t outputPath fs).1, true)

/-- Model of the compute-type adjustment of `__main__` (lines 248-250):
if device is "cpu" and compute_type is not in ["int8", "float32"], it is
forced to "int8". -/
def adjustComputeType (device computeType : String) : String :=
  if device = "cpu" ∧ computeType ∉ (["int8", "float32"] : List String) then
    "int8"
  else
    computeType

/- Helper lemmas -/

theorem backup_path_ne (p : String) : p ++ ".backup" ≠ p := by
  intro h
  have h2 : (p ++ ".backup").data = p.data := congrArg String.data h
  rw [String.data_append] at h2
  have h3 := congrArg List.length h2
  simp at h3

theorem dropWhile_eq_nil_of_all {α : Type} {p : α → Bool} :
    ∀ l : List α, (∀ c ∈ l.dropWhile p, p c = true) → l.dropWhile p = []
  | [], _ => rfl
  | a :: l, h => by
    by_cases hp : p a = true
    · rw [List.dropWhile_cons_of_pos hp] at h ⊢
      exact dropWhile_eq_nil_of_all l h
    · rw [List.dropWhile_cons_of_neg hp] at h
      exact absurd (h a (by simp)) hp

theorem pyStripList_not_all_whitespace (cs : List Char) (h : pyStripList cs ≠ []) :
    ¬ (∀ c ∈ pyStripList cs, Char.isWhitespace c = true) := by
  intro hall
  apply h
  unfold pyStripList at hall ⊢
  have hall2 : ∀ c ∈ ((cs.dropWhile Char.isWhitespace).reverse).dropWhile Char.isWhitespace,
      Char.isWhitespace c = true := by
    intro c hc
    exact hall c (List.mem_reverse.mpr hc)
  rw [dropWhile_eq_nil_of_all _ hall2]
  simp

theorem pyStrip_ne_empty_iff (s : String) : pyStrip s ≠ "" ↔ pyStripList s.data ≠ [] := by
  unfold pyStrip
  constructor
  · intro h hnil
    apply h
    rw [hnil]
  · intro h he
    apply h
    have := congrArg String.data he
    exact this

theorem processSegment_lastText (st : LoopState) (t : String) :
    (processSegment st t).lastText = pyStrip t := by
  unfold processSegment
  by_cases h : pyStrip t = st.lastText ∧ (pyStrip t).length > 10
  · rw [if_pos h]
    by_cases h4 : st.repetitionCount + 1 > 3
    · rw [if_pos h4]
      exact h.1.symm
    · rw [if_neg h4]
      exact h.1.symm
  · rw [if_neg h]

theorem processSegments_append_lastText (ts : List String) (t : String) :
    (processSegments (ts ++ [t])).lastText = pyStrip t := by
  unfold processSegments
  rw [List.foldl_append]
  exact processSegment_lastText _ t

theorem processSegment_fullText (st : LoopState) (t : String) :
    (processSegment st t).fullText = st.fullText ∨
    ((processSegment st t).fullText = st.fullText ++ [pyStrip t] ∧ pyStrip t ≠ "") := by
  unfold processSegment appendText
  by_cases h : pyStrip t = st.lastText ∧ (pyStrip t).length > 10
  · rw [if_pos h]
    by_cases h4 : st.repetitionCount + 1 > 3
    · rw [if_pos h4]
      exact Or.inl rfl
    · rw [if_neg h4]
      by_cases ha : pyStrip t ≠ "" ∧ pyStrip t ∉ (["", " "] : List String)
      · rw [if_pos ha]
        exact Or.inr ⟨rfl, ha.1⟩
      · rw [if_neg ha]
        exact Or.inl rfl
  · rw [if_neg h]
    by_cases ha : pyStrip t ≠ "" ∧ pyStrip t ∉ (["", " "] : List String)
    · rw [if_pos ha]
      exact Or.inr ⟨rfl, ha.1⟩
    · rw [if_neg ha]
      exact Or.inl rfl

theorem foldl_fullText_decomp :
    ∀ (texts : List String) (st : LoopState),
      ∃ d : List String,
        (texts.foldl processSegment st).fullText = st.fullText ++ d ∧
        d.Sublist (texts.map pyStrip) ∧
        ∀ e ∈ d, e ≠ ""
  | [], st => ⟨[], by simp, by simp, by simp⟩
  | t :: ts, st => by
    obtain ⟨d, hd, hsub, hne⟩ := foldl_fullText_decomp ts (processSegment st t)
    rw [List.foldl_cons]
    rcases processSegment_fullText st t with hcase | hcase
    · exact ⟨d, by rw [hd, hcase], by simpa using hsub.cons (pyStrip t), hne⟩
    · refine ⟨pyStrip t :: d, ?_, ?_, ?_⟩
      · rw [hd, hcase.1, List.append_assoc]
        rfl
      · simpa using hsub.cons₂ (pyStrip t)
      · intro e he
        rcases List.mem_cons.mp he with he | he
        · rw [he]
          exact hcase.2
        · exact hne e he

theorem transcribeAccum_sublist (texts : List String) :
    (transcribeAccum texts).Sublist (texts.map pyStrip) := by
  obtain ⟨d, hd, hsub, _⟩ := foldl_fullText_decomp texts initState
  unfold transcribeAccum processSegments
  rw [hd]
  simpa [initState] using hsub

theorem transcribeAccum_ne_empty (texts : List String) :
    ∀ e ∈ transcribeAccum texts, e ≠ "" := by
  obtain ⟨d, hd, _, hne⟩ := foldl_fullText_decomp texts initState
  unfold transcribeAccum processSegments
  rw [hd]
  simpa [initState] using hne

theorem save_ok (text p old : String) (fs : FS) (h : fs p = some old) :
    (save_text_with_backup true true true text p fs).2 = true ∧
    (save_text_with_backup true true true text p fs).1 p = some text ∧
    (save_text_with_backup true true true text p fs).1 (p ++ ".backup") = some old := by
  unfold save_text_with_backup writeNewFile FS.update
  rw [h]
  simp [backup_path_ne p]

theorem save_keeps_old (renameOk openOk writeOk : Bool) (text p old : String)
    (fs : FS) (h : fs p = some old) :
    (save_text_with_backup renameOk openOk writeOk text p fs).1 p = some old ∨
    (save_text_with_backup renameOk openOk writeOk text p fs).1 (p ++ ".backup") = some old := by
  unfold save_text_with_backup writeNewFile FS.update
  rw [h]
  cases renameOk with
  | false => left; simpa using h
  | true =>
    cases openOk with
    | false => right; simp [backup_path_ne p]
    | true =>
      cases writeOk with
      | false => right; simp [backup_path_ne p]
      | true => right; simp [backup_path_ne p]

/-- A concrete one-file file system used to instantiate theorems with
hypotheses. -/
def exampleFS : FS :=
  fun q => if q = "out.txt" then some "old" else none

theorem appendText_of_long (full : List String) (c : String) (h : c.length > 10) :
    appendText full c = full ++ [c] := by
  have h0 : c ≠ "" := by
    intro he
    rw [he] at h
    exact absurd h (by decide)
  have h1 : c ≠ " " := by
    intro he
    rw [he] at h
    exact absurd h (by decide)
  unfold appendText
  rw [if_pos]
  exact ⟨h0, by simp [h0, h1]⟩

theorem pyStrip_ne_space (t : String) : pyStrip t ≠ " " := by
  intro h
  have hd : pyStripList t.data = [' '] := congrArg String.data h
  have hnil : pyStripList t.data ≠ [] := by
    rw [hd]
    simp
  apply pyStripList_not_all_whitespace t.data hnil
  rw [hd]
  intro c hc
  simp at hc
  rw [hc]
  decide

theorem processSegment_emits (st : LoopState) (t : String)
    (hsup : ¬(pyStrip t = st.lastText ∧ (pyStrip t).length > 10 ∧ st.repetitionCount + 1 > 3))
    (hne : pyStrip t ≠ "") :
    (processSegment st t).fullText = st.fullText ++ [pyStrip t] := by
  unfold processSegment
  by_cases h : pyStrip t = st.lastText ∧ (pyStrip t).length > 10
  · rw [if_pos h]
    have h4 : ¬ (st.repetitionCount + 1 > 3) := fun hgt => hsup ⟨h.1, h.2, hgt⟩
    rw [if_neg h4]
    exact appendText_of_long st.fullText (pyStrip t) h.2
  · rw [if_neg h]
    have ha : appendText st.fullText (pyStrip t) = st.fullText ++ [pyStrip t] := by
      unfold appendText
      rw [if_pos]
      exact ⟨hne, by simp [hne, pyStrip_ne_space t]⟩
    simpa using ha

/- Claim theorems -/

/-- C5: for every result text and output path, if a file already exists at
the output path, `save_text_with_backup` (with the rename and the write
succeeding) renames it to the path with the `.backup` suffix, replacing any
prior backup, and writes the new text: afterwards the output path contains
exactly the new text and the backup path contains the previous content. -/
theorem save_text_with_backup_spec (text p old : String) (fs : FS)
    (h : fs p = some old) :
    (save_text_with_backup true true true text p fs).2 = true ∧
    (save_text_with_backup true true true text p fs).1 p = some text ∧
    (save_text_with_backup true true true text p fs).1 (p ++ ".backup") = some old :=
  save_ok text p old fs h

/-- Witness for C5 at a concrete file system holding "old" at "out.txt". -/
theorem save_text_with_backup_spec_witness :
    (save_text_with_backup true true true "new" "out.txt" exampleFS).2 = true ∧
    (save_text_with_backup true true true "new" "out.txt" exampleFS).1 "out.txt" = some "new" ∧
    (save_text_with_backup true true true "new" "out.txt" exampleFS).1 ("out.txt" ++ ".backup") = some "old" :=
  save_text_with_backup_spec "new" "out.txt" "old" exampleFS rfl

/-- C9: `save_text_with_backup` never destroys the previous output content,
whatever the outcome of the rename, the open and the write: the content
that was at the output path beforehand is still present either at the
output path itself or at the `.backup` path. -/
theorem save_preserves_previous_content (renameOk openOk writeOk : Bool)
    (text p old : String) (fs : FS) (h : fs p = some old) :
    (save_text_with_backup renameOk openOk writeOk text p fs).1 p = some old ∨
    (save_text_with_backup renameOk openOk writeOk text p fs).1 (p ++ ".backup") = some old :=
  save_keeps_old renameOk openOk writeOk text p old fs h

/-- Witness for C9: a failing rename leaves the old content at the output
path itself. -/
theorem save_preserves_previous_content_witness :
    (save_text_with_backup false true true "new" "out.txt" exampleFS).1 "out.txt" = some "old" ∨
    (save_text_with_backup false true true "new" "out.txt" exampleFS).1 ("out.txt" ++ ".backup") = some "old" :=
  save_preserves_previous_content false true true "new" "out.txt" "old" exampleFS rfl

/-- C8: when transcription fails (result None), the main program does not
invoke the save routine and leaves the file system (in particular the
output file and its backup) completely unchanged. -/
theorem no_save_on_failed_run (renameOk openOk writeOk : Bool) (p : String) (fs : FS) :
    (mainSaveStep none renameOk openOk writeOk p fs).1 = fs ∧
    (mainSaveStep none renameOk openOk writeOk p fs).2 = false :=
  ⟨rfl, rfl⟩

/-- C10: an empty-but-successful result (Some "") is still saved: the main
program invokes the save routine, which moves the existing file at the
output path to its backup and leaves an empty file at the output path. -/
theorem empty_result_saved (p old : String) (fs : FS) (h : fs p = some old) :
    (mainSaveStep (some "") true true true p fs).2 = true ∧
    (mainSaveStep (some "") true true true p fs).1 p = some "" ∧
    (mainSaveStep (some "") true true true p fs).1 (p ++ ".backup") = some old := by
  have hs := save_ok "" p old fs h
  exact ⟨rfl, hs.2.1, hs.2.2⟩

/-- Witness for C10 at the concrete one-file file system. -/
theorem empty_result_saved_witness :
    (mainSaveStep (some "") true true true "out.txt" exampleFS).2 = true ∧
    (mainSaveStep (some "") true true true "out.txt" exampleFS).1 "out.txt" = some "" ∧
    (mainSaveStep (some "") true true true "out.txt" exampleFS).1 ("out.txt" ++ ".backup") = some "old" :=
  empty_result_saved "out.txt" "old" exampleFS rfl

/-- C3: the driver returns None when the audio file does not exist — and
does so uniformly in the engine outcome, i.e. without consulting the
engine — and returns None for every engine exception (user interruption,
memory exhaustion, any other error). The embedding is a total function
into `Option String`, mirroring that no exception propagates to the
caller. -/
theorem transcribe_failure_returns_none
    (engine engine2 : Except TranscribeError (List Segment))
    (e : TranscribeError) (b : Bool) :
    transcribe_audio_faster false engine = none ∧
    transcribe_audio_faster false engine = transcribe_audio_faster false engine2 ∧
    transcribe_audio_faster b (Except.error e) = none := by
  refine ⟨rfl, rfl, ?_⟩
  cases b <;> rfl

/-- C7: an empty segment stream on an existing file yields Some "", which
differs from the None produced by a failed run. -/
theorem empty_stream_result_spec (e : TranscribeError) :
    transcribe_audio_faster true (Except.ok []) = some "" ∧
    transcribe_audio_faster true (Except.ok []) ≠ transcribe_audio_faster true (Except.error e) := by
  exact ⟨rfl, by simp [transcribe_audio_faster, resultText, transcribeAccum, processSegments, initState]⟩

/-- C6: when the device is "cpu" and the compute type is neither "int8"
nor "float32" (in particular "float16"), the effective compute type is
"int8"; in every other case the requested compute type is unchanged. -/
theorem adjustComputeType_spec (device ct : String) :
    (device = "cpu" ∧ ct ≠ "int8" ∧ ct ≠ "float32" →
      adjustComputeType device ct = "int8") ∧
    (¬(device = "cpu" ∧ ct ≠ "int8" ∧ ct ≠ "float32") →
      adjustComputeType device ct = ct) ∧
    adjustComputeType "cpu" "float16" = "int8" := by
  refine ⟨?_, ?_, by decide⟩
  · rintro ⟨h1, h2, h3⟩
    unfold adjustComputeType
    rw [if_pos]
    exact ⟨h1, by simp [h2, h3]⟩
  · intro hn
    unfold adjustComputeType
    rw [if_neg]
    intro hc
    exact hn ⟨hc.1, by simpa using hc.2⟩

/-- Witness for C6: the cpu/float16 case forces "int8" and the cuda case
keeps "float16". -/
theorem adjustComputeType_spec_witness :
    adjustComputeType "cpu" "float16" = "int8" ∧
    adjustComputeType "cuda" "float16" = "float16" := by
  refine ⟨(adjustComputeType_spec "cpu" "float16").1 (by decide), ?_⟩
  exact (adjustComputeType_spec "cuda" "float16").2.1 (by decide)

/-- C2: the loop tracks the previous segment's trimmed text (`last_text`
equals the trimmed text of the segment just processed); when the current
trimmed text equals it and is longer than 10 characters the repeat counter
is incremented and, once the counter exceeds 3, the segment is skipped
(the accumulator is unchanged) while below the threshold it is still
emitted; when the guard fails (in particular when the text changes) the
counter resets to 0, `last_text` becomes the new trimmed text, and
emission resumes for nonempty texts. -/
theorem loopDetection_step_spec (st : LoopState) (t : String) (ts : List String) :
    ((pyStrip t = st.lastText ∧ (pyStrip t).length > 10) →
      (processSegment st t).repetitionCount = st.repetitionCount + 1 ∧
      (processSegment st t).lastText = st.lastText ∧
      (st.repetitionCount + 1 > 3 →
        (processSegment st t).fullText = st.fullText) ∧
      (st.repetitionCount + 1 ≤ 3 →
        (processSegment st t).fullText = st.fullText ++ [pyStrip t])) ∧
    (¬(pyStrip t = st.lastText ∧ (pyStrip t).length > 10) →
      (processSegment st t).repetitionCount = 0 ∧
      (processSegment st t).lastText = pyStrip t ∧
      (pyStrip t ≠ "" →
        (processSegment st t).fullText = st.fullText ++ [pyStrip t])) ∧
    (processSegments (ts ++ [t])).lastText = pyStrip t := by
  refine ⟨?_, ?_, processSegments_append_lastText ts t⟩
  · intro h
    by_cases h4 : st.repetitionCount + 1 > 3
    · unfold processSegment
      rw [if_pos h, if_pos h4]
      exact ⟨rfl, rfl, fun _ => rfl, fun hle => absurd h4 (by omega)⟩
    · unfold processSegment
      rw [if_pos h, if_neg h4]
      refine ⟨rfl, rfl, fun hgt => absurd hgt h4, fun _ => ?_⟩
      exact appendText_of_long st.fullText (pyStrip t) h.2
  · intro h
    refine ⟨?_, ?_, ?_⟩
    · unfold processSegment
      rw [if_neg h]
    · unfold processSegment
      rw [if_neg h]
    · intro hne
      apply processSegment_emits st t ?_ hne
      intro hc
      exact h ⟨hc.1, hc.2.1⟩

/-- Witness for C2: from the state with counter 3 and matching long last
text, a further identical segment increments the counter to 4 and is
skipped; a singleton stream leaves its own trimmed text as `last_text`. -/
theorem loopDetection_step_spec_witness :
    (processSegment ⟨[], 3, "aaaaaaaaaaa"⟩ "aaaaaaaaaaa").repetitionCount = 3 + 1 ∧
    (processSegment ⟨[], 3, "aaaaaaaaaaa"⟩ "aaaaaaaaaaa").fullText = [] ∧
    (processSegments ([] ++ ["aaaaaaaaaaa"])).lastText = pyStrip "aaaaaaaaaaa" := by
  have h := loopDetection_step_spec ⟨[], 3, "aaaaaaaaaaa"⟩ "aaaaaaaaaaa" []
  have h1 := h.1 (by decide)
  exact ⟨h1.1, h1.2.2.1 (by decide), h.2.2⟩

/-- C1 counterexample: on the stream of trimmed texts
["a"*11, "a"*11, "a"*11, "a"*11, "b"*11] the repeat counter reaches only
3, which does not exceed the threshold, so nothing is suppressed: the
accumulated result contains four copies, not three. -/
theorem loopDetection_example_cex :
    ¬ ((transcribeAccum
          ["aaaaaaaaaaa", "aaaaaaaaaaa", "aaaaaaaaaaa", "aaaaaaaaaaa", "bbbbbbbbbbb"]).count
            "aaaaaaaaaaa" = 3 ∧
       "bbbbbbbbbbb" ∈ transcribeAccum
          ["aaaaaaaaaaa", "aaaaaaaaaaa", "aaaaaaaaaaa", "aaaaaaaaaaa", "bbbbbbbbbbb"]) := by
  decide

/-- C1 amended: on ["a"*11 four times, "b"*11] no segment is suppressed —
all four copies of the repeated text and the final "b" text appear in the
accumulated result; suppression first occurs at a fifth consecutive copy,
whose stream yields the same accumulated result. -/
theorem loopDetection_example_amended :
    transcribeAccum
        ["aaaaaaaaaaa", "aaaaaaaaaaa", "aaaaaaaaaaa", "aaaaaaaaaaa", "bbbbbbbbbbb"] =
      ["aaaaaaaaaaa", "aaaaaaaaaaa", "aaaaaaaaaaa", "aaaaaaaaaaa", "bbbbbbbbbbb"] ∧
    transcribeAccum
        ["aaaaaaaaaaa", "aaaaaaaaaaa", "aaaaaaaaaaa", "aaaaaaaaaaa", "aaaaaaaaaaa",
         "bbbbbbbbbbb"] =
      ["aaaaaaaaaaa", "aaaaaaaaaaa", "aaaaaaaaaaa", "aaaaaaaaaaa", "bbbbbbbbbbb"] := by
  decide

/-- C4: the accumulated texts form a subsequence of the trimmed segment
texts in arrival order; no accumulated entry is empty or whitespace-only;
the returned result is the newline-joined concatenation of the
accumulated texts; and any non-suppressed segment with nonempty trimmed
text is appended. -/
theorem segment_filter_join_spec (texts : List String) :
    (transcribeAccum texts).Sublist (texts.map pyStrip) ∧
    (∀ e ∈ transcribeAccum texts,
      e ≠ "" ∧ ¬ (∀ c ∈ e.data, Char.isWhitespace c = true)) ∧
    resultText texts = String.intercalate "\n" (transcribeAccum texts) ∧
    (∀ (st : LoopState) (t : String),
      ¬(pyStrip t = st.lastText ∧ (pyStrip t).length > 10 ∧ st.repetitionCount + 1 > 3) →
      pyStrip t ≠ "" →
      (processSegment st t).fullText = st.fullText ++ [pyStrip t]) := by
  refine ⟨transcribeAccum_sublist texts, ?_, rfl, processSegment_emits⟩
  intro e he
  have hne := transcribeAccum_ne_empty texts e he
  refine ⟨hne, ?_⟩
  have hmem : e ∈ texts.map pyStrip := (transcribeAccum_sublist texts).subset he
  obtain ⟨t, _, rfl⟩ := List.mem_map.mp hmem
  have hnil : pyStripList t.data ≠ [] := (pyStrip_ne_empty_iff t).mp hne
  exact pyStripList_not_all_whitespace t.data hnil

/-- Witness for C4 at a concrete stream with padded and whitespace-only
texts, also instantiating the emission conjunct at a concrete state. -/
theorem segment_filter_join_spec_witness :
    (transcribeAccum ["  hi  ", " ", "world"]).Sublist
      (["  hi  ", " ", "world"].map pyStrip) ∧
    (processSegment ⟨[], 0, ""⟩ "world").fullText = [] ++ [pyStrip "world"] := by
  have h := segment_filter_join_spec ["  hi  ", " ", "world"]
  exact ⟨h.1, h.2.2.2 ⟨[], 0, ""⟩ "world" (by decide) (by decide)⟩

end Whisper
